import Mathlib

/-!
Verification of the change-detection and session-state subsystem of the
Vision AI Annotator (src/script_1.py, the local variant, and src/server.py,
the web variant).  Python dictionaries (`OrderedDict`) are embedded as
insertion-ordered association lists, machine floats as exact rationals,
and the producer loop as an explicit state-transformer; external effects
(the detector output, the capture clock, the file system) are inputs.
-/

namespace VisionAI

/-- A bounding box `(x1, y1, x2, y2)` in integer pixel coordinates, the tuple
passed to `calculate_iou` in both source files. -/
structure Box where
  x1 : Int
  y1 : Int
  x2 : Int
  y2 : Int
  deriving DecidableEq

/-- One detected object, the value dictionary built in the producer loop of
`script_1.py` (`run`) and in `server.py` (`process_frame`).  The derived
fields stored by `script_1.py` (`width`, `height`, `center_x`, `center_y`)
are computed from the four coordinates and never read by the change
detector, which recomputes centers from the coordinates, so they are not
duplicated here. -/
structure Detection where
  label : String
  class_id : Int
  x1 : Int
  y1 : Int
  x2 : Int
  y2 : Int
  confidence : ℚ
  deriving DecidableEq

def Detection.box (d : Detection) : Box := ⟨d.x1, d.y1, d.x2, d.y2⟩

/-- Python `max` on two integers, spelled so the kernel can evaluate it. -/
def imax (a b : Int) : Int := if a ≤ b then b else a

/-- Python `min` on two integers, spelled so the kernel can evaluate it. -/
def imin (a b : Int) : Int := if a ≤ b then a else b

theorem imax_eq_max (a b : Int) : imax a b = max a b := by
  simp [imax, max_def]

theorem imin_eq_min (a b : Int) : imin a b = min a b := by
  simp [imin, min_def]

/-- The function `calculate_iou` from `script_1.py` (identical in `server.py`): overlap
rectangle via `max` of the left/top edges and `min` of the right/bottom
edges, early `0.0` when the rectangle is empty, and `intersection/union`
guarded by `union > 0`. -/
def calculate_iou (box1 box2 : Box) : ℚ :=
  let x_left := imax box1.x1 box2.x1
  let y_top := imax box1.y1 box2.y1
  let x_right := imin box1.x2 box2.x2
  let y_bottom := imin box1.y2 box2.y2
  if x_right < x_left ∨ y_bottom < y_top then 0
  else
    let intersection_area : ℚ := ((x_right - x_left) * (y_bottom - y_top) : ℤ)
    let box1_area : ℚ := ((box1.x2 - box1.x1) * (box1.y2 - box1.y1) : ℤ)
    let box2_area : ℚ := ((box2.x2 - box2.x1) * (box2.y2 - box2.y1) : ℤ)
    let union_area := box1_area + box2_area - intersection_area
    if union_area > 0 then intersection_area / union_area else 0

/-- Integer box center `((x1+x2)//2, (y1+y2)//2)`; Python `//` is floor
division, `Int.fdiv` in Lean. -/
def center (d : Detection) : Int × Int :=
  (Int.fdiv (d.x1 + d.x2) 2, Int.fdiv (d.y1 + d.y2) 2)

/-- The displacement test `np.sqrt(dx**2 + dy**2) > position_threshold`.
Since the square root is nonnegative and strictly monotone, the comparison
is root-free: it always holds for a negative threshold and otherwise equals
`dx^2 + dy^2 > threshold^2`; with `threshold = num/den` (`den > 0`) the
latter is the integer comparison `(dx^2 + dy^2) * den^2 > num^2`, stated
that way so that the kernel can evaluate it. -/
def distGt (c1 c2 : Int × Int) (threshold : ℚ) : Bool :=
  if threshold.num < 0 then true
  else decide (((c1.1 - c2.1) ^ 2 + (c1.2 - c2.2) ^ 2) * (threshold.den : Int) ^ 2 >
    threshold.num ^ 2)

/-- Indeed `distGt` decides `dist^2 > threshold^2` (or `threshold < 0`),
which for a nonnegative threshold is exactly `dist > threshold`. -/
theorem distGt_iff (c1 c2 : Int × Int) (t : ℚ) :
    distGt c1 c2 t = true ↔
      (t < 0 ∨ t ^ 2 < (((c1.1 - c2.1) ^ 2 + (c1.2 - c2.2) ^ 2 : ℤ) : ℚ)) := by
  have hnum : t.num < 0 ↔ t < 0 := by
    rw [← not_le, ← not_le, Rat.num_nonneg]
  have hden : (0 : ℚ) < ((t.den : ℤ) : ℚ) := by
    exact_mod_cast t.den_pos
  have key : t.num ^ 2 < ((c1.1 - c2.1) ^ 2 + (c1.2 - c2.2) ^ 2) * (t.den : Int) ^ 2 ↔
      t ^ 2 < (((c1.1 - c2.1) ^ 2 + (c1.2 - c2.2) ^ 2 : ℤ) : ℚ) := by
    have h1 : t ^ 2 = ((t.num : ℚ)) ^ 2 / ((t.den : ℚ)) ^ 2 := by
      rw [← div_pow, Rat.num_div_den]
    rw [h1, div_lt_iff₀ (by positivity)]
    push_cast
    constructor <;> intro h <;> exact_mod_cast h
  simp only [distGt, gt_iff_lt]
  split
  · rename_i hlt
    simp only [true_iff]
    exact Or.inl (hnum.mp hlt)
  · rename_i hge
    rw [decide_eq_true_eq]
    constructor
    · intro h
      exact Or.inr (key.mp h)
    · rintro (hlt | h)
      · exact absurd (hnum.mpr hlt) hge
      · exact key.mpr h

/-- An `OrderedDict` of per-frame objects: insertion-ordered association
list from the synthetic object id to the detection. -/
abbrev ObjMap := List (String × Detection)

/-- Python dict lookup `d[k]` preceded by the membership test `k in d`:
first (and in a dict, only) binding of the key. -/
def alookup (k : String) : List (String × α) → Option α
  | [] => none
  | p :: ps => if p.1 = k then some p.2 else alookup k ps

/-- The `OrderedDict` assignment `d[k] = v`: replace the binding in place when
the key exists, append otherwise. -/
def odInsert : List (String × α) → String → α → List (String × α)
  | [], k, v => [(k, v)]
  | p :: ps, k, v => if p.1 = k then (k, v) :: ps else p :: odInsert ps k v

/-- The label multiset of an object map, `[obj['label'] for obj in d.values()]`. -/
def labelsOf (objs : ObjMap) : List String :=
  objs.map fun p => p.2.label

/-- Python `set(a) == set(b)`: mutual membership of the two label lists. -/
def sameLabelSet (a b : List String) : Bool :=
  a.all (fun x => b.contains x) && b.all (fun x => a.contains x)

/-- Body shared by both variants of `has_significant_changes` once the
pause/None guards have passed: count check, label-set check, then for
every current id also bound in the previous map, the IoU and
center-distance thresholds. -/
def significantBody (prev : ObjMap) (iou_threshold position_threshold : ℚ)
    (current_objects : ObjMap) : Bool :=
  if current_objects.length ≠ prev.length then true
  else if !(sameLabelSet (labelsOf current_objects) (labelsOf prev)) then true
  else current_objects.any fun p =>
    match alookup p.1 prev with
    | none => false
    | some prev_obj =>
      decide (calculate_iou p.2.box prev_obj.box < iou_threshold) ||
      distGt (center p.2) (center prev_obj) position_threshold

/-- The function `has_significant_changes` from `script_1.py`: paused calls report
`False`; a missing previous set reports `True`. -/
def has_significant_changes (paused : Bool) (prev_objects : Option ObjMap)
    (iou_threshold position_threshold : ℚ) (current_objects : ObjMap) : Bool :=
  if paused then false
  else
    match prev_objects with
    | none => true
    | some prev => significantBody prev iou_threshold position_threshold current_objects

/-- The function `has_significant_changes` from `server.py`: `if self.pause_annotation
or self.prev_objects is None: return True`, then the shared body. -/
def has_significant_changes_srv (paused : Bool) (prev_objects : Option ObjMap)
    (iou_threshold position_threshold : ℚ) (current_objects : ObjMap) : Bool :=
  if paused then true
  else
    match prev_objects with
    | none => true
    | some prev => significantBody prev iou_threshold position_threshold current_objects

/-- Sanity check, the worked example of the spec: boxes `(0,0,10,10)` and
`(5,5,15,15)` intersect in area 25 with union 175. -/
theorem iou_worked_example :
    calculate_iou ⟨0, 0, 10, 10⟩ ⟨5, 5, 15, 15⟩ = 25 / 175 := by
  norm_num [calculate_iou, imax, imin]

/-! ### Decimal representations of naturals

The store keys `frame_{saved_index}` and the object ids
`{label}_{i}_{frame_count}` are Python f-strings; their Lean counterparts
use `Nat.repr`.  The lemmas below establish that `Nat.repr` is injective
and never produces an underscore, which is what key-freshness and
id-disjointness arguments need. -/

theorem toDigitsCore_append (fuel n : Nat) (acc : List Char) :
    Nat.toDigitsCore 10 fuel n acc = Nat.toDigitsCore 10 fuel n [] ++ acc := by
  induction fuel generalizing n acc with
  | zero => simp [Nat.toDigitsCore]
  | succ f ih =>
    simp only [Nat.toDigitsCore]
    by_cases h : n / 10 = 0
    · simp [h]
    · simp only [h, if_false]
      rw [ih (n / 10) (Nat.digitChar (n % 10) :: acc),
        ih (n / 10) [Nat.digitChar (n % 10)]]
      simp

theorem toDigitsCore_eq_digits (n : Nat) (hn : 0 < n) :
    ∀ fuel, n ≤ fuel →
      Nat.toDigitsCore 10 fuel n [] = ((Nat.digits 10 n).map Nat.digitChar).reverse := by
  induction n using Nat.strong_induction_on with
  | _ n ih =>
    intro fuel hf
    obtain ⟨f, rfl⟩ : ∃ f, fuel = f + 1 := ⟨fuel - 1, by omega⟩
    have hdig : Nat.digits 10 n = n % 10 :: Nat.digits 10 (n / 10) :=
      Nat.digits_def' (by norm_num) hn
    simp only [Nat.toDigitsCore]
    by_cases h : n / 10 = 0
    · simp [h, hdig]
    · simp only [h, if_false]
      have hlt : n / 10 < n := Nat.div_lt_self hn (by norm_num)
      rw [toDigitsCore_append, ih (n / 10) hlt (Nat.pos_of_ne_zero h) f (by omega), hdig]
      simp

theorem toDigits_eq (n : Nat) :
    Nat.toDigits 10 n =
      if n = 0 then ['0'] else ((Nat.digits 10 n).map Nat.digitChar).reverse := by
  by_cases h : n = 0
  · subst h
    simp only [Nat.toDigits, Nat.toDigitsCore]
    decide
  · rw [if_neg h, Nat.toDigits,
      toDigitsCore_eq_digits n (Nat.pos_of_ne_zero h) (n + 1) (by omega)]

theorem digitChar_injOn (a b : Nat) (ha : a < 10) (hb : b < 10)
    (h : Nat.digitChar a = Nat.digitChar b) : a = b := by
  interval_cases a <;> interval_cases b <;> revert h <;> decide

theorem map_digitChar_inj : ∀ (l1 l2 : List Nat), (∀ x ∈ l1, x < 10) →
    (∀ x ∈ l2, x < 10) → l1.map Nat.digitChar = l2.map Nat.digitChar → l1 = l2 := by
  intro l1
  induction l1 with
  | nil =>
    intro l2 _ _ h
    cases l2 with
    | nil => rfl
    | cons b bs => exact absurd h (by simp)
  | cons a as ih =>
    intro l2 h1 h2 h
    cases l2 with
    | nil => exact absurd h (by simp)
    | cons b bs =>
      simp only [List.map_cons, List.cons.injEq] at h
      have hab : a = b :=
        digitChar_injOn a b (h1 a (by simp)) (h2 b (by simp)) h.1
      have hrest := ih bs (fun x hx => h1 x (by simp [hx]))
        (fun x hx => h2 x (by simp [hx])) h.2
      rw [hab, hrest]

theorem repr_injective {m n : Nat} (h : Nat.repr m = Nat.repr n) : m = n := by
  have hmn : Nat.toDigits 10 m = Nat.toDigits 10 n := by
    have := congrArg String.data h
    simpa [Nat.repr, List.asString] using this
  rw [toDigits_eq, toDigits_eq] at hmn
  have hlt : ∀ k, ∀ d ∈ Nat.digits 10 k, d < 10 := fun k d hd =>
    Nat.digits_lt_base (by norm_num) hd
  by_cases hm : m = 0 <;> by_cases hn : n = 0
  · rw [hm, hn]
  · exfalso
    rw [if_pos hm, if_neg hn] at hmn
    have : (Nat.digits 10 n).map Nat.digitChar = ['0'] := by
      have := congrArg List.reverse hmn
      simpa using this.symm
    have hdig : Nat.digits 10 n = [0] :=
      map_digitChar_inj _ [0] (hlt n) (by simp) (by simpa using this)
    have : n = 0 := by
      have := Nat.ofDigits_digits 10 n
      rw [hdig] at this
      simpa [Nat.ofDigits] using this.symm
    exact hn this
  · exfalso
    rw [if_neg hm, if_pos hn] at hmn
    have : (Nat.digits 10 m).map Nat.digitChar = ['0'] := by
      have := congrArg List.reverse hmn
      simpa using this
    have hdig : Nat.digits 10 m = [0] :=
      map_digitChar_inj _ [0] (hlt m) (by simp) (by simpa using this)
    have : m = 0 := by
      have := Nat.ofDigits_digits 10 m
      rw [hdig, Nat.ofDigits] at this
      simpa using this.symm
    exact hm this
  · rw [if_neg hm, if_neg hn] at hmn
    have hmap : (Nat.digits 10 m).map Nat.digitChar = (Nat.digits 10 n).map Nat.digitChar := by
      have := congrArg List.reverse hmn
      simpa using this
    have := map_digitChar_inj _ _ (hlt m) (hlt n) hmap
    exact Nat.digits_inj_iff.mp this

theorem digitChar_ne_underscore : ∀ (n : Nat), Nat.digitChar n ≠ '_'
  | 0 => by decide
  | 1 => by decide
  | 2 => by decide
  | 3 => by decide
  | 4 => by decide
  | 5 => by decide
  | 6 => by decide
  | 7 => by decide
  | 8 => by decide
  | 9 => by decide
  | 10 => by decide
  | 11 => by decide
  | 12 => by decide
  | 13 => by decide
  | 14 => by decide
  | 15 => by decide
  | (_ + 16) => by
    unfold Nat.digitChar
    repeat rw [if_neg (by omega)]
    decide

theorem repr_no_underscore (n : Nat) : '_' ∉ (Nat.repr n).data := by
  rw [Nat.repr, List.asString]
  show '_' ∉ Nat.toDigits 10 n
  rw [toDigits_eq]
  split
  · decide
  · intro hmem
    rw [List.mem_reverse] at hmem
    obtain ⟨d, _, hd⟩ := List.mem_map.mp hmem
    exact digitChar_ne_underscore d hd

/-- The session-store key `f"frame_{saved_index}"`. -/
def frameKey (n : Nat) : String := "frame_" ++ Nat.repr n

theorem frameKey_injective {m n : Nat} (h : frameKey m = frameKey n) : m = n := by
  have hd := congrArg String.data h
  simp only [frameKey, String.data_append] at hd
  exact repr_injective (String.ext (List.append_cancel_left hd))

/-- The synthetic per-frame object id `f"{label}_{i}_{frame_count}"` built in
the producer loops.  The embedded frame counter is what makes ids from
different frames distinct. -/
def objId (label : String) (i frame_count : Nat) : String :=
  label ++ "_" ++ Nat.repr i ++ "_" ++ Nat.repr frame_count

theorem takeWhile_ne_underscore (l r : List Char) (hl : ∀ c ∈ l, c ≠ '_') :
    ((l ++ '_' :: r).takeWhile (fun c => !(c == '_'))) = l := by
  induction l with
  | nil => simp [List.takeWhile]
  | cons a as ih =>
    have ha : (a == '_') = false := beq_eq_false_iff_ne.mpr (hl a (by simp))
    simp only [List.cons_append, List.takeWhile_cons, ha, Bool.not_false, if_true]
    rw [ih fun c hc => hl c (by simp [hc])]

theorem underscore_suffix_inj {a b x y : List Char}
    (hx : ∀ c ∈ x, c ≠ '_') (hy : ∀ c ∈ y, c ≠ '_')
    (h : a ++ '_' :: x = b ++ '_' :: y) : x = y := by
  have h' := congrArg List.reverse h
  simp only [List.reverse_append, List.reverse_cons] at h'
  rw [List.append_assoc, List.append_assoc, List.singleton_append,
    List.singleton_append] at h'
  have hx' : ∀ c ∈ x.reverse, c ≠ '_' := fun c hc => hx c (List.mem_reverse.mp hc)
  have hy' : ∀ c ∈ y.reverse, c ≠ '_' := fun c hc => hy c (List.mem_reverse.mp hc)
  have := congrArg (List.takeWhile (fun c => !(c == '_'))) h'
  rw [takeWhile_ne_underscore _ _ hx', takeWhile_ne_underscore _ _ hy'] at this
  have := congrArg List.reverse this
  simpa using this

/-- Two object ids can only coincide when their embedded frame counters
coincide: the frame counter is the (underscore-free) text after the last
underscore. -/
theorem objId_frame_inj {l l' : String} {i i' m n : Nat}
    (h : objId l i m = objId l' i' n) : m = n := by
  have hd := congrArg String.data h
  simp only [objId, String.data_append] at hd
  rw [List.append_assoc (l.data ++ "_".data ++ (Nat.repr i).data),
    List.append_assoc (l'.data ++ "_".data ++ (Nat.repr i').data)] at hd
  have hds : ("_".data : List Char) = ['_'] := rfl
  rw [hds, List.singleton_append, List.singleton_append] at hd
  have hm : ∀ c ∈ (Nat.repr m).data, c ≠ '_' := fun c hc he =>
    repr_no_underscore m (he ▸ hc)
  have hn : ∀ c ∈ (Nat.repr n).data, c ≠ '_' := fun c hc he =>
    repr_no_underscore n (he ▸ hc)
  exact repr_injective (String.ext (underscore_suffix_inj hm hn hd))

/-! ### Association-list (OrderedDict) helpers -/

theorem alookup_eq_none {α : Type} {k : String} {l : List (String × α)}
    (h : ∀ p ∈ l, p.1 ≠ k) : alookup k l = none := by
  induction l with
  | nil => rfl
  | cons p ps ih =>
    simp only [alookup]
    rw [if_neg (h p (by simp))]
    exact ih fun q hq => h q (by simp [hq])

theorem alookup_of_nodup_mem {α : Type} {l : List (String × α)} {k : String} {v : α}
    (hnd : (l.map Prod.fst).Nodup) (hmem : (k, v) ∈ l) : alookup k l = some v := by
  induction l with
  | nil => simp at hmem
  | cons p ps ih =>
    simp only [List.map_cons, List.nodup_cons] at hnd
    rcases List.mem_cons.mp hmem with heq | hmem'
    · rw [← heq]
      simp [alookup]
    · have hk : k ∈ ps.map Prod.fst := List.mem_map.mpr ⟨(k, v), hmem', rfl⟩
      have hne : p.1 ≠ k := fun he => hnd.1 (he ▸ hk)
      simp only [alookup]
      rw [if_neg hne]
      exact ih hnd.2 hmem'

theorem odInsert_of_fresh {α : Type} {l : List (String × α)} {k : String} (v : α)
    (h : ∀ p ∈ l, p.1 ≠ k) : odInsert l k v = l ++ [(k, v)] := by
  induction l with
  | nil => rfl
  | cons p ps ih =>
    simp only [odInsert]
    rw [if_neg (h p (by simp)), ih fun q hq => h q (by simp [hq])]
    simp

/-! ### The session data model -/

/-- A persisted frame: the `frame_annotation` dictionary appended to
`self.annotations` (named `FrameAnn` here).  `timestamp` is the capture
instant, an abstract tick of the external clock. -/
structure FrameAnn where
  frame_number : Nat
  saved_index : Nat
  timestamp : Nat
  objects : ObjMap
  deriving DecidableEq

/-- The sum `sum(len(frame['objects']) for frame in self.annotations.values())`. -/
def totalObjects (anns : List (String × FrameAnn)) : Nat :=
  (anns.map fun p => p.2.objects.length).sum

/-- The confidence cutoff `0.5` of `conf > 0.5` in both producer loops,
written via `Rat.divInt` so that the kernel can evaluate comparisons. -/
def confCutoff : ℚ := Rat.divInt 1 2

theorem confCutoff_eq : confCutoff = 1 / 2 := by
  rw [confCutoff, Rat.divInt_eq_div]
  norm_num

/-- The default `self.iou_threshold = 0.3`. -/
def defaultIou : ℚ := Rat.divInt 3 10

theorem defaultIou_eq : defaultIou = 3 / 10 := by
  rw [defaultIou, Rat.divInt_eq_div]
  norm_num

/-- One frame's detector output turned into `current_objects`: Python
enumerates the raw box array by index `i`, keeps `conf > 0.5`, and keys
each kept detection by `f"{label}_{i}_{frame_count}"`. -/
def mkObjects (dets : List Detection) (frame_count : Nat) : ObjMap :=
  (dets.enum.filter fun p => decide (confCutoff < p.2.confidence)).map
    fun p => (objId p.2.label p.1 frame_count, p.2)

/-- The mutable state of the local variant (`script_1.py`): the session
store, the change-detector baseline, the two loop-local counters of `run`,
the stats entries the claims are about, the pause flag
(`self.pause_annotation`), and the two thresholds.  Unmodeled fields (fps,
per-label counts, detection history, camera plumbing) influence none of
the modeled ones. -/
structure LocalState where
  annotations : List (String × FrameAnn)
  prev_objects : Option ObjMap
  frame_count : Nat
  saved_frame_count : Nat
  stats_total_frames : Nat
  stats_saved_frames : Nat
  stats_total_objects : Nat
  paused : Bool
  iou_threshold : ℚ
  position_threshold : ℚ
  deriving DecidableEq

/-- The state right after `__init__` of `script_1.py`. -/
def initLocal : LocalState where
  annotations := []
  prev_objects := none
  frame_count := 0
  saved_frame_count := 0
  stats_total_frames := 0
  stats_saved_frames := 0
  stats_total_objects := 0
  paused := false
  iou_threshold := defaultIou
  position_threshold := 50

/-- One iteration of the `run` loop of `script_1.py`, given the detector
output for the captured frame (the external camera and model): increment
`frame_count`; skip detection while paused; ask `has_significant_changes`;
on a significant, unpaused frame append the annotation under
`f"frame_{saved_frame_count}"` and reset `prev_objects`; finally update
the stats entries (the autosave call does not touch any modeled state).
The capture timestamp is abstracted by the frame counter. -/
def runStep (s : LocalState) (dets : List Detection) : LocalState :=
  let frame_count := s.frame_count + 1
  let current_objects : ObjMap := if s.paused then [] else mkObjects dets frame_count
  let should_save := has_significant_changes s.paused s.prev_objects
    s.iou_threshold s.position_threshold current_objects
  let s' :=
    if should_save && !s.paused then
      let saved := s.saved_frame_count + 1
      { s with
        frame_count := frame_count
        saved_frame_count := saved
        annotations := odInsert s.annotations (frameKey saved)
          { frame_number := frame_count, saved_index := saved,
            timestamp := frame_count, objects := current_objects }
        prev_objects := some current_objects }
    else { s with frame_count := frame_count }
  { s' with
    stats_total_frames := frame_count
    stats_saved_frames := s'.saved_frame_count
    stats_total_objects := totalObjects s'.annotations }

/-- The `/api/toggle_pause` route (identical in both variants):
`self.pause_annotation = not self.pause_annotation` and nothing else. -/
def toggle_pause (s : LocalState) : LocalState :=
  { s with paused := !s.paused }

/-- The state of the web variant (`server.py`) relevant to the claims.  In
`server.py` the saved-frame counter is `self.stats['saved_frames']` itself;
there is no separate loop-local counter. -/
structure ServerState where
  annotations : List (String × FrameAnn)
  prev_objects : Option ObjMap
  stats_total_frames : Nat
  stats_saved_frames : Nat
  stats_total_objects : Nat
  paused : Bool
  iou_threshold : ℚ
  position_threshold : ℚ
  deriving DecidableEq

/-- The `/api/toggle_pause` route of `server.py`, same two lines as the
local one. -/
def toggle_pause_srv (s : ServerState) : ServerState :=
  { s with paused := !s.paused }

/-- The state right after `__init__` of `server.py`. -/
def initServer : ServerState where
  annotations := []
  prev_objects := none
  stats_total_frames := 0
  stats_saved_frames := 0
  stats_total_objects := 0
  paused := false
  iou_threshold := defaultIou
  position_threshold := 50

/-- The `/api/process_frame` route of `server.py`, given the decoded
detector output: always bump `stats['total_frames']`; when not paused,
build `current_objects` (ids embed `stats['total_frames']`; the client's
confidence setting is modeled at its default `0.5`), consult
`has_significant_changes`, and on success bump `stats['saved_frames']`,
store under `f"frame_{stats['saved_frames']}"` and reset `prev_objects`;
always recompute `stats['total_objects']` as the store-wide sum at the
end.  The timestamp is abstracted by the frame counter. -/
def process_frame (s : ServerState) (dets : List Detection) : ServerState :=
  let total_frames := s.stats_total_frames + 1
  let s1 := { s with stats_total_frames := total_frames }
  let s2 :=
    if s.paused then s1
    else
      let current_objects := mkObjects dets total_frames
      if has_significant_changes_srv s.paused s.prev_objects
          s.iou_threshold s.position_threshold current_objects then
        let saved := s.stats_saved_frames + 1
        { s1 with
          stats_saved_frames := saved
          annotations := odInsert s.annotations (frameKey saved)
            { frame_number := total_frames, saved_index := saved,
              timestamp := total_frames, objects := current_objects }
          prev_objects := some current_objects }
      else s1
  { s2 with stats_total_objects := totalObjects s2.annotations }

/-- The route `/api/clear_annotations`: `self.annotations.clear()` and
`self.prev_objects = None`; the stats dictionary is not touched. -/
def clear_annotations (s : ServerState) : ServerState :=
  { s with annotations := [], prev_objects := none }

/-- The route `/api/reset_stats`: replace the stats dictionary by zeroes; the store
and `prev_objects` are not touched. -/
def reset_stats (s : ServerState) : ServerState :=
  { s with stats_total_frames := 0, stats_saved_frames := 0, stats_total_objects := 0 }

/-- The operations of the web variant that the session-store claims
quantify over.  `forceSave` (`/api/save_session` → `_save_to_json`)
writes a file but mutates no in-memory state. -/
inductive ServerOp where
  | frame (dets : List Detection)
  | clear
  | reset
  | forceSave
  deriving DecidableEq

def applyOp (s : ServerState) : ServerOp → ServerState
  | .frame dets => process_frame s dets
  | .clear => clear_annotations s
  | .reset => reset_stats s
  | .forceSave => s

/-- The server state reached from start-up by a sequence of operations. -/
def runOps (ops : List ServerOp) : ServerState :=
  ops.foldl applyOp initServer

/-- Marks the operations that leave the saved-frame bookkeeping alone:
everything except `clear` (which empties the store without resetting the
counter) and `reset` (which resets the counter without emptying the
store). -/
def ServerOp.keepsCounters : ServerOp → Bool
  | .clear => false
  | .reset => false
  | _ => true

/-! ### Persistence (`_save_to_json` and `/api/save_session`) -/

/-- State visible to `_save_to_json`: the in-memory store plus the log of
files successfully written.  Whether the file write raises is an input
(`write_fails`) since the file system is external. -/
structure PersistState where
  annotations : List (String × FrameAnn)
  written : List (String × Nat)
  deriving DecidableEq

/-- Filename `self.output_file` when `final`, the autosave location otherwise. -/
def saveFilename (final : Bool) : String :=
  if final then "annotations.json" else "autosave_" ++ "annotations.json"

/-- The method `_save_to_json(final)`: the `if self.annotations:` guard falls through
to `return False` on an empty store without attempting a write; a raising
write is caught, logged, and yields `False`; a completed write logs the
document (modeled by its name and frame count) and yields `True`.  No
branch mutates `self.annotations`. -/
def save_to_json (s : PersistState) (write_fails final : Bool) : Bool × PersistState :=
  if s.annotations.isEmpty then (false, s)
  else if write_fails then (false, s)
  else (true, { s with written := s.written ++ [(saveFilename final, s.annotations.length)] })

/-- The `/api/save_session` route: call `_save_to_json()`; report the
frame count with HTTP 200 on success, `('Failed to save session', 500)`
otherwise. -/
def save_session (s : PersistState) (write_fails : Bool) : (String × Nat) × PersistState :=
  let r := save_to_json s write_fails false
  if r.1 then
    (("Session saved with " ++ Nat.repr s.annotations.length ++ " frames", 200), r.2)
  else (("Failed to save session", 500), r.2)

/-! ### Frame broadcast queue -/

/-- One execution of the frame-publishing block of the `run` loop of
`script_1.py` on `queue.Queue(maxsize=30)`: when `full()` (length at
capacity) one `get_nowait()` drops the oldest frame; then `put_nowait`
appends the new frame — if the queue were somehow still full the raised
`queue.Full` is swallowed and the frame dropped.  All calls are the
non-blocking variants, so the producer never waits. -/
def publishFrame {α : Type} (q : List α) (f : α) : List α :=
  let q1 := if 30 ≤ q.length then q.tail else q
  if 30 ≤ q1.length then q1 else q1 ++ [f]

/-! ### `get_recent_detections` -/

/-- One entry of the list built by `get_recent_detections`. -/
structure RecentDet where
  label : String
  confidence : ℚ
  timestamp : Nat
  deriving DecidableEq

/-- Python `round` on a rational: round half to even. -/
def roundHalfEven (q : ℚ) : ℤ :=
  let f := ⌊q⌋
  let r := q - f
  if r < Rat.divInt 1 2 then f
  else if Rat.divInt 1 2 < r then f + 1
  else if f % 2 = 0 then f else f + 1

/-- Python `round(x, 1)`: one decimal place (the float detour of the source is
modeled exactly on rationals). -/
def round1 (q : ℚ) : ℚ := Rat.divInt (roundHalfEven (q * 10)) 10

/-- The entry built for one stored object:
`{'label': ..., 'confidence': round(conf * 100, 1), 'timestamp': frame['timestamp']}`. -/
def frameDets (fa : FrameAnn) : List RecentDet :=
  fa.objects.map fun p => ⟨p.2.label, round1 (p.2.confidence * 100), fa.timestamp⟩

/-- The inner `for obj in frame['objects'].values()` loop together with
the early `return recent` once `len(recent) >= count`; the flag records
whether the early return fired. -/
def recentInner (count : Nat) : List RecentDet → List RecentDet → List RecentDet × Bool
  | [], recent => (recent, false)
  | o :: os, recent =>
    let recent' := recent ++ [o]
    if count ≤ recent'.length then (recent', true) else recentInner count os recent'

/-- The outer `for frame in frames:` loop of `get_recent_detections`:
stop with the collected list when the inner loop returned early, else
continue with the next frame. -/
def recentOuter (count : Nat) : List FrameAnn → List RecentDet → List RecentDet
  | [], recent => recent
  | f :: fs, recent =>
    let r := recentInner count (frameDets f) recent
    if r.2 then r.1 else recentOuter count fs r.1

/-- The method `get_recent_detections(count)` (identical in both variants): walk
`list(self.annotations.values())[-10:]` — the last ten stored frames, in
store order — collecting entries until `count` are gathered. -/
def get_recent_detections (anns : List (String × FrameAnn)) (count : Nat) : List RecentDet :=
  recentOuter count ((anns.map Prod.snd).drop (anns.length - 10)) []

/-! ### Algebraic properties of `calculate_iou` (claim C5) -/

theorem calculate_iou_comm (a b : Box) : calculate_iou a b = calculate_iou b a := by
  simp only [calculate_iou, imax_eq_max, imin_eq_min]
  rw [max_comm b.x1 a.x1, max_comm b.y1 a.y1, min_comm b.x2 a.x2, min_comm b.y2 a.y2,
    add_comm ((((b.x2 - b.x1) * (b.y2 - b.y1) : ℤ) : ℚ)) ((((a.x2 - a.x1) * (a.y2 - a.y1) : ℤ) : ℚ))]

theorem calculate_iou_self (a : Box) (hx : a.x1 < a.x2) (hy : a.y1 < a.y2) :
    calculate_iou a a = 1 := by
  simp only [calculate_iou, imax_eq_max, imin_eq_min, max_self, min_self]
  have h1 : ¬(a.x2 < a.x1 ∨ a.y2 < a.y1) := by omega
  rw [if_neg h1]
  have hA : (0 : ℚ) < (((a.x2 - a.x1) * (a.y2 - a.y1) : ℤ) : ℚ) := by
    have : (0 : ℤ) < (a.x2 - a.x1) * (a.y2 - a.y1) :=
      mul_pos (by omega) (by omega)
    exact_mod_cast this
  have h2 : (((a.x2 - a.x1) * (a.y2 - a.y1) : ℤ) : ℚ) +
      (((a.x2 - a.x1) * (a.y2 - a.y1) : ℤ) : ℚ) -
      (((a.x2 - a.x1) * (a.y2 - a.y1) : ℤ) : ℚ) =
      (((a.x2 - a.x1) * (a.y2 - a.y1) : ℤ) : ℚ) := by ring
  rw [h2, if_pos hA, div_self (ne_of_gt hA)]

theorem calculate_iou_no_overlap (a b : Box)
    (hsep : min a.x2 b.x2 ≤ max a.x1 b.x1 ∨ min a.y2 b.y2 ≤ max a.y1 b.y1) :
    calculate_iou a b = 0 := by
  simp only [calculate_iou, imax_eq_max, imin_eq_min]
  by_cases hc : min a.x2 b.x2 < max a.x1 b.x1 ∨ min a.y2 b.y2 < max a.y1 b.y1
  · rw [if_pos hc]
  · rw [if_neg hc]
    push_neg at hc
    have hzero : ((min a.x2 b.x2 - max a.x1 b.x1) * (min a.y2 b.y2 - max a.y1 b.y1) : ℤ) = 0 := by
      rcases hsep with h | h
      · have hx : min a.x2 b.x2 - max a.x1 b.x1 = 0 := by omega
        rw [hx, zero_mul]
      · have hy : min a.y2 b.y2 - max a.y1 b.y1 = 0 := by omega
        rw [hy, mul_zero]
    rw [hzero]
    push_cast
    split <;> simp

theorem calculate_iou_degenerate (a b : Box)
    (ha0 : (a.x2 - a.x1) * (a.y2 - a.y1) = 0) (hb0 : (b.x2 - b.x1) * (b.y2 - b.y1) = 0) :
    calculate_iou a b = 0 := by
  simp only [calculate_iou, imax_eq_max, imin_eq_min]
  by_cases hc : min a.x2 b.x2 < max a.x1 b.x1 ∨ min a.y2 b.y2 < max a.y1 b.y1
  · rw [if_pos hc]
  · rw [if_neg hc]
    push_neg at hc
    have hinter : ((min a.x2 b.x2 - max a.x1 b.x1) * (min a.y2 b.y2 - max a.y1 b.y1) : ℤ) = 0 := by
      rcases mul_eq_zero.mp ha0 with h | h
      · have hx : min a.x2 b.x2 - max a.x1 b.x1 = 0 := by omega
        rw [hx, zero_mul]
      · have hy : min a.y2 b.y2 - max a.y1 b.y1 = 0 := by omega
        rw [hy, mul_zero]
    rw [hinter, ha0, hb0]
    norm_num

/-- C5: `calculate_iou` is symmetric for all boxes; equals `1` on any
non-degenerate box paired with itself; equals `0` whenever the boxes do
not overlap (their overlap rectangle is empty in some axis); and equals
`0` — rather than dividing by zero — when both boxes are degenerate
(zero area), which makes the computed union zero. -/
theorem C5_iou_algebra :
    (∀ a b : Box, calculate_iou a b = calculate_iou b a) ∧
    (∀ a : Box, a.x1 < a.x2 → a.y1 < a.y2 → calculate_iou a a = 1) ∧
    (∀ a b : Box, min a.x2 b.x2 ≤ max a.x1 b.x1 ∨ min a.y2 b.y2 ≤ max a.y1 b.y1 →
      calculate_iou a b = 0) ∧
    (∀ a b : Box, (a.x2 - a.x1) * (a.y2 - a.y1) = 0 → (b.x2 - b.x1) * (b.y2 - b.y1) = 0 →
      calculate_iou a b = 0) :=
  ⟨calculate_iou_comm, calculate_iou_self, calculate_iou_no_overlap, calculate_iou_degenerate⟩

/-- Witness for C5 at concrete boxes: the spec's `A=(0,0,10,10)`,
`B=(5,5,15,15)`, a disjoint pair, and a degenerate pair. -/
theorem C5_iou_algebra_witness :
    calculate_iou ⟨0, 0, 10, 10⟩ ⟨5, 5, 15, 15⟩ = calculate_iou ⟨5, 5, 15, 15⟩ ⟨0, 0, 10, 10⟩ ∧
    calculate_iou ⟨0, 0, 10, 10⟩ ⟨0, 0, 10, 10⟩ = 1 ∧
    calculate_iou ⟨0, 0, 10, 10⟩ ⟨20, 0, 30, 10⟩ = 0 ∧
    calculate_iou ⟨0, 0, 0, 0⟩ ⟨1, 1, 1, 1⟩ = 0 :=
  ⟨C5_iou_algebra.1 _ _,
   C5_iou_algebra.2.1 ⟨0, 0, 10, 10⟩ (by decide) (by decide),
   C5_iou_algebra.2.2.1 ⟨0, 0, 10, 10⟩ ⟨20, 0, 30, 10⟩ (Or.inl (by norm_num)),
   C5_iou_algebra.2.2.2 ⟨0, 0, 0, 0⟩ ⟨1, 1, 1, 1⟩ (by decide) (by decide)⟩

/-! ### Identical consecutive sets are not significant (claim C6) -/

theorem sameLabelSet_refl (l : List String) : sameLabelSet l l = true := by
  simp only [sameLabelSet, Bool.and_self, List.all_eq_true]
  intro x hx
  simpa using hx

theorem distGt_self (c : Int × Int) {t : ℚ} (ht : 0 ≤ t) : distGt c c t = false := by
  simp only [distGt, sub_self]
  rw [if_neg (not_lt.mpr (Rat.num_nonneg.mpr ht))]
  apply decide_eq_false
  intro hcon
  have h0 : ((0 : ℤ) ^ 2 + 0 ^ 2) * (t.den : ℤ) ^ 2 = 0 := by ring
  rw [gt_iff_lt, h0] at hcon
  exact absurd hcon (not_lt.mpr (sq_nonneg t.num))

/-- C6: a non-paused call of the local change detector with a non-empty
previous set and a current set literally identical to it (hence same
count, same labels, same boxes) reports no significant change, provided
the boxes are well-formed, the IoU threshold does not exceed `1` and the
position threshold is nonnegative (`0.3` and `50` by default).  The ids
are those of a dictionary, i.e. without duplicates. -/
theorem C6_identical_sets_not_significant (p : ObjMap) (iouT posT : ℚ)
    (hne : p ≠ [])
    (hnd : (p.map Prod.fst).Nodup)
    (hwf : ∀ e ∈ p, e.2.x1 < e.2.x2 ∧ e.2.y1 < e.2.y2)
    (hiou : iouT ≤ 1) (hpos : 0 ≤ posT) :
    has_significant_changes false (some p) iouT posT p = false := by
  have hbody : significantBody p iouT posT p = false := by
    unfold significantBody
    rw [if_neg (by simp), sameLabelSet_refl]
    simp only [Bool.not_true, Bool.false_eq_true, if_false]
    rw [List.any_eq_false]
    intro e he
    have hx : e.2.box.x1 < e.2.box.x2 := (hwf e he).1
    have hy : e.2.box.y1 < e.2.box.y2 := (hwf e he).2
    rw [alookup_of_nodup_mem hnd (by simpa using he)]
    show ¬(decide (calculate_iou e.2.box e.2.box < iouT) ||
      distGt (center e.2) (center e.2) posT) = true
    rw [Bool.not_eq_true, Bool.or_eq_false_iff]
    constructor
    · rw [calculate_iou_self e.2.box hx hy]
      exact decide_eq_false (not_lt.mpr hiou)
    · exact distGt_self _ hpos
  simp only [has_significant_changes, Bool.false_eq_true, if_false]
  exact hbody

/-- Witness for C6: the spec's single-person set compared with itself at
the default thresholds. -/
theorem C6_identical_sets_not_significant_witness :
    has_significant_changes false
      (some [(objId "person" 0 1, ⟨"person", 0, 0, 0, 10, 10, Rat.divInt 9 10⟩)])
      defaultIou 50
      [(objId "person" 0 1, ⟨"person", 0, 0, 0, 10, 10, Rat.divInt 9 10⟩)] = false :=
  C6_identical_sets_not_significant _ defaultIou 50
    (by decide) (by decide) (by decide)
    (by rw [defaultIou_eq]; norm_num) (by norm_num)

/-! ### The stream queue never exceeds its capacity (claim C7) -/

theorem publishFrame_length_le {α : Type} (q : List α) (f : α) (h : q.length ≤ 30) :
    (publishFrame q f).length ≤ 30 := by
  have ht : q.tail.length = q.length - 1 := List.length_tail q
  simp only [publishFrame]
  by_cases h1 : 30 ≤ q.length
  · rw [if_pos h1, if_neg (by rw [ht]; omega)]
    rw [List.length_append, ht]
    simp
    omega
  · rw [if_neg h1, if_neg h1]
    rw [List.length_append]
    simp
    omega

theorem foldl_publishFrame_le {α : Type} (fs : List α) (q : List α) (h : q.length ≤ 30) :
    (fs.foldl publishFrame q).length ≤ 30 := by
  induction fs generalizing q with
  | nil => simpa
  | cons f fs ih => exact ih _ (publishFrame_length_le q f h)

theorem publishFrame_full {α : Type} (q : List α) (f : α) (h : q.length = 30) :
    publishFrame q f = q.tail ++ [f] := by
  have ht : q.tail.length = q.length - 1 := List.length_tail q
  simp only [publishFrame]
  rw [if_pos (show 30 ≤ q.length by omega),
    if_neg (show ¬30 ≤ q.tail.length by omega)]

/-- C7: starting from the empty stream queue, any sequence of publishes
by the single producer leaves at most 30 frames queued (the configured
`maxsize=30` of the local variant); a publish that finds the queue at
capacity drops exactly the oldest frame and appends the new one.  The
embedded `publishFrame` is a total function: the source block uses only
`get_nowait`/`put_nowait`, so the producer never blocks. -/
theorem C7_queue_bounded :
    (∀ fs : List Nat, (fs.foldl publishFrame ([] : List Nat)).length ≤ 30) ∧
    (∀ (q : List Nat) (f : Nat), q.length ≤ 30 → (publishFrame q f).length ≤ 30) ∧
    (∀ (q : List Nat) (f : Nat), q.length = 30 → publishFrame q f = q.tail ++ [f]) :=
  ⟨fun fs => foldl_publishFrame_le fs [] (by simp),
   fun q f h => publishFrame_length_le q f h,
   fun q f h => publishFrame_full q f h⟩

/-- Witness for C7 at a concrete full queue and a concrete publish
sequence. -/
theorem C7_queue_bounded_witness :
    ([1, 2, 3].foldl publishFrame ([] : List Nat)).length ≤ 30 ∧
    (publishFrame (List.replicate 30 0) (7 : Nat)).length ≤ 30 ∧
    publishFrame (List.replicate 30 0) (7 : Nat) = (List.replicate 30 0).tail ++ [7] :=
  ⟨C7_queue_bounded.1 [1, 2, 3],
   C7_queue_bounded.2.1 (List.replicate 30 0) 7 (by decide),
   C7_queue_bounded.2.2 (List.replicate 30 0) 7 (by decide)⟩

/-! ### Failed saves are harmless (claim C8) -/

/-- C8: when the serialization or file write raises, `_save_to_json`
returns failure and the whole persistence state — in particular the
in-memory annotations store — is exactly what it was before the call; a
subsequent save of the (still intact, non-empty) store with a healthy
file system succeeds.  The exception is caught inside the function, so a
failed save terminates nothing. -/
theorem C8_failed_save_harmless (s : PersistState) (final : Bool) :
    (save_to_json s true final).1 = false ∧
    (save_to_json s true final).2 = s ∧
    (s.annotations ≠ [] → (save_to_json ((save_to_json s true final).2) false final).1 = true) := by
  have h2 : (save_to_json s true final).2 = s := by
    simp only [save_to_json]
    split <;> rfl
  refine ⟨?_, h2, ?_⟩
  · simp only [save_to_json]
    split <;> rfl
  · intro hne
    rw [h2]
    simp only [save_to_json]
    rw [if_neg (by simpa [List.isEmpty_iff] using hne)]
    rfl

/-- Witness for C8: a one-frame store, a raising write, then a clean
retry. -/
theorem C8_failed_save_harmless_witness :
    (save_to_json ⟨[(frameKey 1, ⟨1, 1, 1, []⟩)], []⟩ true false).1 = false ∧
    (save_to_json ⟨[(frameKey 1, ⟨1, 1, 1, []⟩)], []⟩ true false).2 =
      ⟨[(frameKey 1, ⟨1, 1, 1, []⟩)], []⟩ ∧
    (save_to_json ((save_to_json ⟨[(frameKey 1, ⟨1, 1, 1, []⟩)], []⟩ true false).2)
      false false).1 = true := by
  have h := C8_failed_save_harmless ⟨[(frameKey 1, ⟨1, 1, 1, []⟩)], []⟩ false
  exact ⟨h.1, h.2.1, h.2.2 (by decide)⟩

/-! ### An empty store makes the save endpoint report failure (claim C10) -/

/-- C10: with an empty session store, `_save_to_json` attempts no file
write and falls through to a falsy return regardless of the file system,
so `/api/save_session` answers `('Failed to save session', 500)` even
though no write error occurred and nothing is wrong with persistence. -/
theorem C10_empty_save_reports_failure (s : PersistState) (hempty : s.annotations = [])
    (write_fails : Bool) :
    (save_to_json s write_fails false).1 = false ∧
    (save_to_json s write_fails false).2.written = s.written ∧
    (save_session s write_fails).1 = ("Failed to save session", 500) ∧
    (save_session s write_fails).2 = s := by
  have h1 : save_to_json s write_fails false = (false, s) := by
    simp only [save_to_json]
    rw [if_pos (by simp [hempty])]
  refine ⟨by rw [h1], by rw [h1], ?_, ?_⟩ <;>
    simp only [save_session, h1] <;> rfl

/-- Witness for C10: the empty store with a perfectly healthy file
system (`write_fails = false`). -/
theorem C10_empty_save_reports_failure_witness :
    (save_to_json ⟨[], []⟩ false false).1 = false ∧
    (save_to_json ⟨[], []⟩ false false).2.written = [] ∧
    (save_session ⟨[], []⟩ false).1 = ("Failed to save session", 500) ∧
    (save_session ⟨[], []⟩ false).2 = ⟨[], []⟩ :=
  C10_empty_save_reports_failure ⟨[], []⟩ rfl false

/-! ### How one `run`-loop iteration rewrites the local state -/

theorem hsc_of_prev_none (iouT posT : ℚ) (cur : ObjMap) :
    has_significant_changes false none iouT posT cur = true := rfl

theorem runStep_save (s : LocalState) (dets : List Detection)
    (hp : s.paused = false)
    (hs : has_significant_changes s.paused s.prev_objects s.iou_threshold s.position_threshold
      (mkObjects dets (s.frame_count + 1)) = true) :
    runStep s dets =
      { s with
        frame_count := s.frame_count + 1
        saved_frame_count := s.saved_frame_count + 1
        annotations := odInsert s.annotations (frameKey (s.saved_frame_count + 1))
          ⟨s.frame_count + 1, s.saved_frame_count + 1, s.frame_count + 1,
            mkObjects dets (s.frame_count + 1)⟩
        prev_objects := some (mkObjects dets (s.frame_count + 1))
        stats_total_frames := s.frame_count + 1
        stats_saved_frames := s.saved_frame_count + 1
        stats_total_objects := totalObjects (odInsert s.annotations
          (frameKey (s.saved_frame_count + 1))
          ⟨s.frame_count + 1, s.saved_frame_count + 1, s.frame_count + 1,
            mkObjects dets (s.frame_count + 1)⟩) } := by
  unfold runStep
  rw [hp] at hs ⊢
  simp only [Bool.false_eq_true, if_false, hs, Bool.not_false, Bool.and_self, if_true]

theorem runStep_skip (s : LocalState) (dets : List Detection)
    (hp : s.paused = false)
    (hs : has_significant_changes s.paused s.prev_objects s.iou_threshold s.position_threshold
      (mkObjects dets (s.frame_count + 1)) = false) :
    runStep s dets =
      { s with
        frame_count := s.frame_count + 1
        stats_total_frames := s.frame_count + 1
        stats_saved_frames := s.saved_frame_count
        stats_total_objects := totalObjects s.annotations } := by
  unfold runStep
  rw [hp] at hs ⊢
  simp only [Bool.false_eq_true, if_false, hs, Bool.false_and, if_true]

theorem runStep_paused (s : LocalState) (dets : List Detection)
    (hp : s.paused = true) :
    runStep s dets =
      { s with
        frame_count := s.frame_count + 1
        stats_total_frames := s.frame_count + 1
        stats_saved_frames := s.saved_frame_count
        stats_total_objects := totalObjects s.annotations } := by
  unfold runStep
  rw [hp]
  simp only [has_significant_changes, if_true, Bool.not_true, Bool.and_false,
    Bool.false_eq_true, if_false]

/-! ### Ids embed the frame counter, so they never recur across frames -/

theorem mkObjects_keys (dets : List Detection) (fc : Nat) :
    ∀ p ∈ mkObjects dets fc, ∃ l i, p.1 = objId l i fc := by
  intro p hp
  simp only [mkObjects, List.mem_map] at hp
  obtain ⟨q, _, rfl⟩ := hp
  exact ⟨q.2.label, q.1, rfl⟩

theorem alookup_mkObjects_ne (prevDets curDets : List Detection) {a b : Nat}
    (hab : a ≠ b) (p : String × Detection) (hp : p ∈ mkObjects curDets b) :
    alookup p.1 (mkObjects prevDets a) = none := by
  apply alookup_eq_none
  intro q hq
  obtain ⟨l', i', hk'⟩ := mkObjects_keys prevDets a q hq
  obtain ⟨l, i, hk⟩ := mkObjects_keys curDets b p hp
  rw [hk', hk]
  intro he
  exact hab (objId_frame_inj he)

/-- With the same raw detections, the same confidence filter, and two
distinct frame counters, the change-detector body reports `false`: the
counts and label sets coincide, and no id of the current map is bound in
the previous one. -/
theorem significantBody_same_dets (dets : List Detection) {a b : Nat} (hab : a ≠ b)
    (iouT posT : ℚ) :
    significantBody (mkObjects dets a) iouT posT (mkObjects dets b) = false := by
  unfold significantBody
  rw [if_neg (by simp [mkObjects])]
  rw [show labelsOf (mkObjects dets b) = labelsOf (mkObjects dets a) from by
    simp [labelsOf, mkObjects, List.map_map]]
  rw [sameLabelSet_refl]
  simp only [Bool.not_true, Bool.false_eq_true, if_false]
  rw [List.any_eq_false]
  intro p hp
  rw [alookup_mkObjects_ne dets dets hab p hp]
  simp

/-! ### Pause toggling does not reset the previous set (claim C2) -/

/-- The spec scenario's detection: one person at `(0,0,10,10)` with
confidence `0.9`. -/
def personDet : Detection := ⟨"person", 0, 0, 0, 10, 10, Rat.divInt 9 10⟩

/-- The same person shifted to `(60,60,70,70)`. -/
def personMoved : Detection := ⟨"person", 0, 60, 60, 70, 70, Rat.divInt 9 10⟩

/-- Counterexample to C2: in the local variant, process one person frame
(persisted as frame 1), toggle into pause, process one frame while
paused, toggle back — `prev_objects` is still the pre-pause set rather
than empty — and the first frame after resume, though identical to the
last pre-pause frame, is NOT persisted: the saved counter stays at 1,
where the claim demands treatment as significant (a second persisted
frame) by virtue of a reset. -/
theorem C2_counterexample :
    (toggle_pause (runStep (toggle_pause (runStep initLocal [personDet])) [])).prev_objects ≠
      none ∧
    (runStep (toggle_pause (runStep (toggle_pause (runStep initLocal [personDet])) []))
      [personDet]).saved_frame_count = 1 := by
  constructor
  · decide
  · decide

/-- C2 (amended): `toggle_pause` flips the pause flag and nothing else —
in particular it never resets `prev_objects` — and consequently, for every
detector output `dets` (and anything `dets2` the camera shows while
paused), the first frame processed after pause–resume is compared against
the pre-pause persisted set like any other frame; since its ids embed the
new frame counter, an identical detection set shares no id with the
baseline and, with count and labels unchanged, is NOT persisted: the
saved counter remains 1. -/
theorem C2_amended_toggle_keeps_prev (s : LocalState) (t : ServerState)
    (dets dets2 : List Detection) :
    (toggle_pause s).prev_objects = s.prev_objects ∧
    (toggle_pause_srv t).prev_objects = t.prev_objects ∧
    (toggle_pause (runStep (toggle_pause (runStep initLocal dets)) dets2)).prev_objects =
      some (mkObjects dets 1) ∧
    (runStep (toggle_pause (runStep (toggle_pause (runStep initLocal dets)) dets2))
      dets).saved_frame_count = 1 := by
  have h1 := runStep_save initLocal dets rfl (hsc_of_prev_none _ _ _)
  have hp1 : (runStep initLocal dets).paused = false := by
    rw [h1]
    rfl
  have hprev1 : (runStep initLocal dets).prev_objects = some (mkObjects dets 1) := by
    rw [h1]
    rfl
  have hfc1 : (runStep initLocal dets).frame_count = 1 := by
    rw [h1]
    rfl
  have hsv1 : (runStep initLocal dets).saved_frame_count = 1 := by
    rw [h1]
    rfl
  have hp2 : (toggle_pause (runStep initLocal dets)).paused = true := by
    show (!(runStep initLocal dets).paused) = true
    rw [hp1]
    rfl
  have h3 := runStep_paused (toggle_pause (runStep initLocal dets)) dets2 hp2
  have hprev3 : (runStep (toggle_pause (runStep initLocal dets)) dets2).prev_objects =
      some (mkObjects dets 1) := by
    rw [h3]
    exact hprev1
  have hp3 : (runStep (toggle_pause (runStep initLocal dets)) dets2).paused = true := by
    rw [h3]
    exact hp2
  have hfc3 : (runStep (toggle_pause (runStep initLocal dets)) dets2).frame_count = 2 := by
    rw [h3]
    show (runStep initLocal dets).frame_count + 1 = 2
    rw [hfc1]
  have hsv3 : (runStep (toggle_pause (runStep initLocal dets)) dets2).saved_frame_count = 1 := by
    rw [h3]
    exact hsv1
  have hp4 : (toggle_pause (runStep (toggle_pause (runStep initLocal dets)) dets2)).paused =
      false := by
    show (!(runStep (toggle_pause (runStep initLocal dets)) dets2).paused) = false
    rw [hp3]
    rfl
  have hprev4 : (toggle_pause (runStep (toggle_pause (runStep initLocal dets))
      dets2)).prev_objects = some (mkObjects dets 1) := hprev3
  have hfc4 : (toggle_pause (runStep (toggle_pause (runStep initLocal dets))
      dets2)).frame_count = 2 := hfc3
  have hs5 : has_significant_changes
      (toggle_pause (runStep (toggle_pause (runStep initLocal dets)) dets2)).paused
      (toggle_pause (runStep (toggle_pause (runStep initLocal dets)) dets2)).prev_objects
      (toggle_pause (runStep (toggle_pause (runStep initLocal dets)) dets2)).iou_threshold
      (toggle_pause (runStep (toggle_pause (runStep initLocal dets)) dets2)).position_threshold
      (mkObjects dets
        ((toggle_pause (runStep (toggle_pause (runStep initLocal dets)) dets2)).frame_count + 1)) =
      false := by
    rw [hp4, hprev4, hfc4]
    show significantBody (mkObjects dets 1) _ _ (mkObjects dets (2 + 1)) = false
    exact significantBody_same_dets dets (by omega) _ _
  have h5 := runStep_skip _ dets hp4 hs5
  refine ⟨rfl, rfl, hprev4, ?_⟩
  rw [h5]
  exact hsv3

/-! ### The moved box of the spec scenario is not persisted (claim C1) -/

/-- C1, the code evaluated at the spec's own scenario (local variant,
default thresholds `iou 0.3` / `position 50`): frame 1 persists the
person at `(0,0,10,10)` as `frame_1`; frame 2 is identical and skipped;
frame 3 moves the person to `(60,60,70,70)` — a center displacement of
`60√2 > 50` pixels, as the first conjunct certifies — yet the run stores
nothing: the saved counter stays at `1`, no `frame_2` entry exists, and
the store still holds exactly one frame.  The ids `person_0_1` and
`person_0_3` embed the frame counter, so the detector's per-id IoU and
displacement checks never execute and a mere move can never force
significance, where the claim demands persistence with `saved_index = 2`. -/
theorem C1_moved_box_not_persisted :
    distGt (center personMoved) (center personDet) 50 = true ∧
    (runStep (runStep (runStep initLocal [personDet]) [personDet])
      [personMoved]).saved_frame_count = 1 ∧
    alookup "frame_2" (runStep (runStep (runStep initLocal [personDet]) [personDet])
      [personMoved]).annotations = none ∧
    (runStep (runStep (runStep initLocal [personDet]) [personDet])
      [personMoved]).annotations.length = 1 := by
  refine ⟨?_, ?_, ?_, ?_⟩ <;> decide

/-! ### The saved-index bookkeeping of the web variant (claims C3, C4) -/

theorem process_frame_save (s : ServerState) (dets : List Detection)
    (hp : s.paused = false)
    (hs : has_significant_changes_srv s.paused s.prev_objects s.iou_threshold
      s.position_threshold (mkObjects dets (s.stats_total_frames + 1)) = true) :
    process_frame s dets =
      { s with
        stats_total_frames := s.stats_total_frames + 1
        stats_saved_frames := s.stats_saved_frames + 1
        annotations := odInsert s.annotations (frameKey (s.stats_saved_frames + 1))
          ⟨s.stats_total_frames + 1, s.stats_saved_frames + 1, s.stats_total_frames + 1,
            mkObjects dets (s.stats_total_frames + 1)⟩
        prev_objects := some (mkObjects dets (s.stats_total_frames + 1))
        stats_total_objects := totalObjects (odInsert s.annotations
          (frameKey (s.stats_saved_frames + 1))
          ⟨s.stats_total_frames + 1, s.stats_saved_frames + 1, s.stats_total_frames + 1,
            mkObjects dets (s.stats_total_frames + 1)⟩) } := by
  unfold process_frame
  rw [hp] at hs ⊢
  simp only [Bool.false_eq_true, if_false, hs, if_true]

theorem process_frame_skip (s : ServerState) (dets : List Detection)
    (hp : s.paused = false)
    (hs : has_significant_changes_srv s.paused s.prev_objects s.iou_threshold
      s.position_threshold (mkObjects dets (s.stats_total_frames + 1)) = false) :
    process_frame s dets =
      { s with
        stats_total_frames := s.stats_total_frames + 1
        stats_total_objects := totalObjects s.annotations } := by
  unfold process_frame
  rw [hp] at hs ⊢
  simp only [Bool.false_eq_true, if_false, hs, if_true]

theorem process_frame_paused (s : ServerState) (dets : List Detection)
    (hp : s.paused = true) :
    process_frame s dets =
      { s with
        stats_total_frames := s.stats_total_frames + 1
        stats_total_objects := totalObjects s.annotations } := by
  unfold process_frame
  rw [hp]
  simp only [if_true]

/-- The canonical-store invariant of the web variant: the saved counter
equals the store size, and reading the store front to back yields the
keys `frame_1 .. frame_N` carrying `saved_index` values `1 .. N`. -/
def StoreInv (s : ServerState) : Prop :=
  s.stats_saved_frames = s.annotations.length ∧
  s.annotations.map (fun p => (p.1, p.2.saved_index)) =
    (List.range' 1 s.annotations.length).map fun n => (frameKey n, n)

/-- Inserting the next frame under `frame_{N+1}` into a canonical store of
`N` frames appends (the key is fresh) and keeps the store canonical. -/
theorem canonical_insert {anns : List (String × FrameAnn)} (N : Nat)
    (hN : N = anns.length)
    (h2 : anns.map (fun p => (p.1, p.2.saved_index)) =
      (List.range' 1 anns.length).map fun n => (frameKey n, n))
    (fa : FrameAnn) (hfa : fa.saved_index = N + 1) :
    odInsert anns (frameKey (N + 1)) fa = anns ++ [(frameKey (N + 1), fa)] ∧
    (odInsert anns (frameKey (N + 1)) fa).length = anns.length + 1 ∧
    (odInsert anns (frameKey (N + 1)) fa).map (fun p => (p.1, p.2.saved_index)) =
      (List.range' 1 (odInsert anns (frameKey (N + 1)) fa).length).map
        fun n => (frameKey n, n) := by
  have hfresh : ∀ p ∈ anns, p.1 ≠ frameKey (N + 1) := by
    intro p hp he
    have hmm : (p.1, p.2.saved_index) ∈
        (List.range' 1 anns.length).map fun n => (frameKey n, n) := by
      rw [← h2]
      exact List.mem_map_of_mem _ hp
    obtain ⟨m, hm, heq⟩ := List.mem_map.mp hmm
    have hkey : frameKey m = p.1 := congrArg Prod.fst heq
    have hmN : m = N + 1 := frameKey_injective (hkey.trans he)
    obtain ⟨i, hi, hrep⟩ := List.mem_range'.mp hm
    omega
  have hins := odInsert_of_fresh fa hfresh
  refine ⟨hins, ?_, ?_⟩
  · rw [hins, List.length_append]
    rfl
  · rw [hins, List.length_append]
    show _ = (List.range' 1 (anns.length + 1)).map fun n => (frameKey n, n)
    rw [List.map_append, h2, List.range'_concat, List.map_append]
    have h1 : 1 + 1 * anns.length = anns.length + 1 := by omega
    rw [h1]
    simp [hfa, hN]

theorem StoreInv_applyOp {s : ServerState} (h : StoreInv s) (op : ServerOp)
    (hop : op.keepsCounters = true) : StoreInv (applyOp s op) := by
  cases op with
  | clear => simp [ServerOp.keepsCounters] at hop
  | reset => simp [ServerOp.keepsCounters] at hop
  | forceSave => exact h
  | frame dets =>
    show StoreInv (process_frame s dets)
    by_cases hp : s.paused = true
    · rw [process_frame_paused s dets hp]
      exact h
    · have hp' : s.paused = false := by
        simpa using hp
      by_cases hs : has_significant_changes_srv s.paused s.prev_objects s.iou_threshold
          s.position_threshold (mkObjects dets (s.stats_total_frames + 1)) = true
      · rw [process_frame_save s dets hp' hs]
        unfold StoreInv
        dsimp only
        constructor
        · rw [(canonical_insert s.stats_saved_frames h.1 h.2 _ rfl).1,
            List.length_append, h.1]
          rfl
        · exact (canonical_insert s.stats_saved_frames h.1 h.2 _ rfl).2.2
      · have hs' : has_significant_changes_srv s.paused s.prev_objects s.iou_threshold
            s.position_threshold (mkObjects dets (s.stats_total_frames + 1)) = false := by
          simpa using hs
        rw [process_frame_skip s dets hp' hs']
        exact h

theorem StoreInv_foldl (ops : List ServerOp) (s : ServerState) (hs : StoreInv s)
    (hops : ∀ op ∈ ops, op.keepsCounters = true) :
    StoreInv (ops.foldl applyOp s) := by
  induction ops generalizing s with
  | nil => exact hs
  | cons op ops ih =>
    exact ih _ (StoreInv_applyOp hs op (hops op (by simp)))
      fun o ho => hops o (by simp [ho])

/-- Counterexample to C3: persist one frame, clear the annotations
(`/api/clear_annotations` empties the store but does not reset the saved
counter in `self.stats`), persist another frame — the store now holds
exactly one frame, but its `saved_index` is `2`, stored under `frame_2`:
not the gap-free `1..N` sequence the claim asserts for every operation
sequence. -/
theorem C3_counterexample :
    (runOps [.frame [personDet], .clear, .frame [personDet]]).annotations.map
      (fun p => p.2.saved_index) = [2] ∧
    (runOps [.frame [personDet], .clear, .frame [personDet]]).annotations.length = 1 ∧
    (runOps [.frame [personDet], .clear, .frame [personDet]]).annotations.map
      (fun p => p.1) = [frameKey 2] ∧
    ([2] : List Nat) ≠ [1] := by
  refine ⟨?_, ?_, ?_, ?_⟩ <;> decide

/-- C3 (amended): as long as no clear-annotations and no reset-stats
operation intervenes, every sequence of processed frames and force-saves,
starting from start-up, leaves the store canonical: reading it front to
back (append order) yields exactly the keys `frame_1 .. frame_N` with
`saved_index` values `1 .. N` — strictly increasing, gap-free and
duplicate-free — for `N` the current store size.  `clear_annotations`
breaks this by emptying the store without resetting the counter (later
indices continue from the old count), and `reset_stats` by resetting the
counter without emptying the store (later saves overwrite `frame_1`, …). -/
theorem C3_amended_saved_index_canonical (ops : List ServerOp)
    (hops : ∀ op ∈ ops, op.keepsCounters = true) :
    (runOps ops).annotations.map (fun p => (p.1, p.2.saved_index)) =
      (List.range' 1 (runOps ops).annotations.length).map (fun n => (frameKey n, n)) ∧
    (runOps ops).stats_saved_frames = (runOps ops).annotations.length := by
  have h := StoreInv_foldl ops initServer ⟨rfl, rfl⟩ hops
  exact ⟨h.2, h.1⟩

/-- Witness for C3 at a concrete operation sequence: two significant
frames around a force-save. -/
theorem C3_amended_saved_index_canonical_witness :
    (runOps [.frame [personDet], .forceSave, .frame [personMoved]]).annotations.map
        (fun p => (p.1, p.2.saved_index)) =
      (List.range' 1
        (runOps [.frame [personDet], .forceSave, .frame [personMoved]]).annotations.length).map
        (fun n => (frameKey n, n)) ∧
    (runOps [.frame [personDet], .forceSave, .frame [personMoved]]).stats_saved_frames =
      (runOps [.frame [personDet], .forceSave, .frame [personMoved]]).annotations.length :=
  C3_amended_saved_index_canonical [.frame [personDet], .forceSave, .frame [personMoved]]
    (by decide)

/-! ### `total_objects` versus the store sum (claim C4) -/

/-- Counterexample to C4: persist one frame holding one person, then call
`/api/reset_stats` — the stats read `total_objects = 0` while the store
still holds that one object, so the invariant fails exactly at the point
the claim includes ("immediately after reset-stats"); clear-annotations
diverges the same way in the other direction. -/
theorem C4_counterexample :
    (runOps [.frame [personDet], .reset]).stats_total_objects = 0 ∧
    totalObjects (runOps [.frame [personDet], .reset]).annotations = 1 ∧
    (runOps [.frame [personDet], .clear]).stats_total_objects = 1 ∧
    totalObjects (runOps [.frame [personDet], .clear]).annotations = 0 := by
  refine ⟨?_, ?_, ?_, ?_⟩ <;> decide

/-- C4 (amended): `total_objects` equals the store-wide object sum at
start-up and immediately after every processed frame — the frame handler
recomputes it from the store as its last step, whatever the state was
before — and force-saves preserve the equality; it is `clear_annotations`
and `reset_stats` that leave it stale until the next processed frame. -/
theorem C4_amended_total_objects (s : ServerState) (dets : List Detection) :
    initServer.stats_total_objects = totalObjects initServer.annotations ∧
    (process_frame s dets).stats_total_objects =
      totalObjects (process_frame s dets).annotations ∧
    (s.stats_total_objects = totalObjects s.annotations →
      (applyOp s .forceSave).stats_total_objects =
        totalObjects (applyOp s .forceSave).annotations) :=
  ⟨rfl, rfl, fun h => h⟩

/-- Witness for C4 at a concrete state (start-up) and concrete frame. -/
theorem C4_amended_total_objects_witness :
    initServer.stats_total_objects = totalObjects initServer.annotations ∧
    (process_frame initServer [personDet]).stats_total_objects =
      totalObjects (process_frame initServer [personDet]).annotations ∧
    (applyOp initServer .forceSave).stats_total_objects =
      totalObjects (applyOp initServer .forceSave).annotations := by
  have h := C4_amended_total_objects initServer [personDet]
  exact ⟨h.1, h.2.1, h.2.2 (by decide)⟩

/-! ### `get_recent_detections` walks the window oldest-first (claim C9) -/

theorem recentInner_spec (count : Nat) (os : List RecentDet) :
    ∀ recent : List RecentDet, recent.length < count →
      recentInner count os recent =
        ((recent ++ os).take count, decide (count ≤ recent.length + os.length)) := by
  induction os with
  | nil =>
    intro recent h
    simp only [recentInner, List.append_nil, List.length_nil, Nat.add_zero]
    rw [List.take_of_length_le (Nat.le_of_lt h), decide_eq_false (by omega)]
  | cons o os ih =>
    intro recent h
    simp only [recentInner]
    by_cases hc : count ≤ (recent ++ [o]).length
    · rw [if_pos hc]
      rw [List.length_append, List.length_singleton] at hc
      have hcount : count = recent.length + 1 := by omega
      have h1 : (recent ++ o :: os).take count = recent ++ [o] := by
        rw [hcount, List.take_append_eq_append_take,
          List.take_of_length_le (by omega)]
        have h2 : recent.length + 1 - recent.length = 1 := by omega
        rw [h2]
        rfl
      rw [h1, decide_eq_true (show count ≤ recent.length + (o :: os).length by
        rw [List.length_cons]; omega)]
    · rw [if_neg hc]
      rw [List.length_append, List.length_singleton] at hc
      have h' : (recent ++ [o]).length < count := by
        rw [List.length_append, List.length_singleton]
        omega
      rw [ih (recent ++ [o]) h']
      rw [List.append_assoc, List.singleton_append]
      have hdec : decide (count ≤ (recent ++ [o]).length + os.length) =
          decide (count ≤ recent.length + (o :: os).length) := by
        apply decide_eq_decide.mpr
        rw [List.length_append, List.length_singleton, List.length_cons]
        omega
      rw [hdec]

theorem take_append_left {α : Type} {l1 l2 : List α} {n : Nat} (h : n ≤ l1.length) :
    (l1 ++ l2).take n = l1.take n := by
  rw [List.take_append_eq_append_take, show n - l1.length = 0 from by omega]
  simp

theorem recentOuter_spec (count : Nat) (frames : List FrameAnn) :
    ∀ recent : List RecentDet, recent.length < count →
      recentOuter count frames recent =
        (recent ++ (frames.map frameDets).flatten).take count := by
  induction frames with
  | nil =>
    intro recent h
    simp only [recentOuter, List.map_nil, List.flatten_nil, List.append_nil]
    rw [List.take_of_length_le (Nat.le_of_lt h)]
  | cons f fs ih =>
    intro recent h
    simp only [recentOuter]
    rw [recentInner_spec count (frameDets f) recent h]
    by_cases hc : count ≤ recent.length + (frameDets f).length
    · rw [decide_eq_true hc]
      simp only [if_true]
      conv_rhs => rw [List.map_cons, List.flatten_cons, ← List.append_assoc,
        take_append_left (by rw [List.length_append]; omega)]
    · rw [decide_eq_false (by omega)]
      simp only [Bool.false_eq_true, if_false]
      have htake : (recent ++ frameDets f).take count = recent ++ frameDets f :=
        List.take_of_length_le (by rw [List.length_append]; omega)
      rw [htake, ih (recent ++ frameDets f) (by rw [List.length_append]; omega)]
      rw [List.map_cons, List.flatten_cons, ← List.append_assoc]

/-- A two-frame store: `frame_1` holds one detection labeled `a`
(timestamp 1), `frame_2` — the most recently saved frame — one detection
labeled `b` (timestamp 2). -/
def annsTwo : List (String × FrameAnn) :=
  [(frameKey 1, ⟨1, 1, 1, [(objId "a" 0 1, ⟨"a", 0, 0, 0, 10, 10, 1⟩)]⟩),
   (frameKey 2, ⟨2, 2, 2, [(objId "b" 0 2, ⟨"b", 0, 0, 0, 10, 10, 1⟩)]⟩)]

/-- Counterexample to C9: on the two-frame store, `get_recent_detections 1`
returns the detection of the OLDEST frame of the window — label `a`,
timestamp 1 — although the latest saved frame is `frame_2` (timestamp 2,
label `b`); the claim's most-recent-first ordering demands the latest
frame's detection first. -/
theorem C9_counterexample :
    (get_recent_detections annsTwo 1).map (fun r => r.label) = ["a"] ∧
    (get_recent_detections annsTwo 1).map (fun r => r.timestamp) = [1] ∧
    (annsTwo.map fun p => p.2.timestamp).getLast? = some 2 ∧
    (["a"] : List String) ≠ ["b"] := by
  refine ⟨?_, ?_, ?_, ?_⟩ <;> decide

/-- C9 (amended): for every store and every `n ≥ 1`,
`get_recent_detections n` returns the first `n` detections of the LAST
TEN stored frames flattened in store order — frames oldest-first within
that window, each frame's detections in insertion order — and hence at
most `n` detections; detections of the latest frame come last and are the
first to be cut off.  (For `n = 0` the source still returns one detection
when any is stored, since it appends before testing `len(recent) >= count`.) -/
theorem C9_amended_recent_oldest_first (anns : List (String × FrameAnn)) (n : Nat)
    (hn : 1 ≤ n) :
    get_recent_detections anns n =
      ((((anns.map Prod.snd).drop (anns.length - 10)).map frameDets).flatten).take n ∧
    (get_recent_detections anns n).length ≤ n := by
  have h := recentOuter_spec n ((anns.map Prod.snd).drop (anns.length - 10)) []
    (by simpa using hn)
  constructor
  · rw [get_recent_detections, h]
    simp
  · rw [get_recent_detections, h]
    simp only [List.nil_append]
    rw [List.length_take]
    exact Nat.min_le_left _ _

/-- Witness for C9 on the two-frame store at `n = 2`. -/
theorem C9_amended_recent_oldest_first_witness :
    get_recent_detections annsTwo 2 =
      ((((annsTwo.map Prod.snd).drop (annsTwo.length - 10)).map frameDets).flatten).take 2 ∧
    (get_recent_detections annsTwo 2).length ≤ 2 :=
  C9_amended_recent_oldest_first annsTwo 2 (by decide)

end VisionAI
